import Mathlib

/-!
Verification of the FinHelper core (auto-categorization, spend aggregation,
budget evaluation, transaction balance effects) against its specification.

The Python source is shallowly embedded: SQLAlchemy sessions become explicit
lists of rows, Python floats become rationals, `datetime` values become a
six-field record compared lexicographically (Python compares datetimes
field-by-field), and the fragment of Python `re` used by the rule engine
(literals, escape classes, the dot wildcard and the Kleene star) is given an
executable matcher; patterns outside that fragment are rejected by the
parser, mirroring the fact that the rule configuration only uses that
fragment.
-/

namespace FinHelper

/-- Transaction type enum from app/models.py (`TransactionType`). -/
inductive TransactionType
  | income
  | expense
  | transfer
deriving DecidableEq, Repr

/-- A Python `datetime` value (app code only uses naive datetimes).
Python compares datetimes lexicographically on
(year, month, day, hour, minute, second). -/
structure DateTime where
  year : Nat
  month : Nat
  day : Nat
  hour : Nat
  minute : Nat
  second : Nat
deriving DecidableEq, Repr

/-- Python `a <= b` on datetimes: lexicographic on the six fields. -/
def DateTime.leB (a b : DateTime) : Bool :=
  if a.year < b.year then true else if b.year < a.year then false
  else if a.month < b.month then true else if b.month < a.month then false
  else if a.day < b.day then true else if b.day < a.day then false
  else if a.hour < b.hour then true else if b.hour < a.hour then false
  else if a.minute < b.minute then true else if b.minute < a.minute then false
  else decide (a.second ≤ b.second)

/-- Python `a < b` on datetimes: lexicographic on the six fields. -/
def DateTime.ltB (a b : DateTime) : Bool :=
  if a.year < b.year then true else if b.year < a.year then false
  else if a.month < b.month then true else if b.month < a.month then false
  else if a.day < b.day then true else if b.day < a.day then false
  else if a.hour < b.hour then true else if b.hour < a.hour then false
  else if a.minute < b.minute then true else if b.minute < a.minute then false
  else decide (a.second < b.second)

/-- A row of the `transactions` table (app/models.py, class `Transaction`),
restricted to the columns the verified core reads. -/
structure Transaction where
  id : Nat
  timestamp : DateTime
  account_id : Nat
  amount : ℚ
  transaction_type : TransactionType
  category_id : Option Nat
  merchant : Option String
  description : Option String
  is_synced_to_sheets : Bool
deriving DecidableEq, Repr

/-- A row of the `accounts` table (app/models.py, class `Account`),
restricted to the columns the verified core reads. -/
structure Account where
  id : Nat
  balance : ℚ
deriving DecidableEq, Repr

/-- A row of the `categories` table (app/models.py, class `Category`),
restricted to the columns the verified core reads. -/
structure Category where
  id : Nat
  name : String
  is_active : Bool
deriving DecidableEq, Repr

/-- A row of the `budgets` table (app/models.py, class `Budget`),
restricted to the columns the verified core reads. -/
structure BudgetRow where
  id : Nat
  category_id : Nat
  month : String
  amount_limit : ℚ
  amount_spent : ℚ
  alert_threshold : ℚ
  is_active : Bool
deriving DecidableEq, Repr

/-! ## Budget evaluation (src/app/api/budgets.py, get_current_budget_status) -/

/-- Budget status values produced by `get_current_budget_status`. -/
inductive BudgetStatus
  | over_budget
  | near_limit
  | on_track
deriving DecidableEq, Repr

/-- budgets.py line 205:
`percentage_used = (current_spending / budget.amount_limit) * 100 if budget.amount_limit > 0 else 0`. -/
def percentageUsed (amount_limit current_spending : ℚ) : ℚ :=
  if amount_limit > 0 then current_spending / amount_limit * 100 else 0

/-- budgets.py lines 208-210:
`status = "over_budget" if percentage_used > 100 else "near_limit" if
percentage_used >= budget.alert_threshold * 100 else "on_track"`. -/
def budgetStatus (amount_limit alert_threshold current_spending : ℚ) : BudgetStatus :=
  if percentageUsed amount_limit current_spending > 100 then BudgetStatus.over_budget
  else if percentageUsed amount_limit current_spending ≥ alert_threshold * 100 then
    BudgetStatus.near_limit
  else BudgetStatus.on_track

/-- budgets.py line 206: `remaining = budget.amount_limit - current_spending`. -/
def budgetRemaining (amount_limit current_spending : ℚ) : ℚ :=
  amount_limit - current_spending

/-! ## Character and string helpers (Python `str` operations on `List Char`) -/

/-- Python `str.lower` as a per-character map (ASCII range suffices for the
rule configuration and the claims). -/
def lowerChars (l : List Char) : List Char := l.map Char.toLower

/-- Whether `needle` occurs at the very start of `hay`. -/
def startsWithB : List Char → List Char → Bool
  | [], _ => true
  | _ :: _, [] => false
  | a :: as, b :: bs => a == b && startsWithB as bs

/-- Python `needle in hay` on strings: substring test. -/
def substrB (needle : List Char) : List Char → Bool
  | [] => needle.isEmpty
  | c :: rest => startsWithB needle (c :: rest) || substrB needle rest

/-- Python `str.strip()`: drop whitespace from both ends. -/
def stripChars (l : List Char) : List Char :=
  ((l.dropWhile Char.isWhitespace).reverse.dropWhile Char.isWhitespace).reverse

/-- Python `int(s)` on a plain digit string; `none` where `int` raises. -/
def digitsToNat : List Char → Option Nat
  | [] => none
  | l => if l.all Char.isDigit then some (l.foldl (fun n c => n * 10 + (c.toNat - 48)) 0) else none

/-- Python `s.split(sep)` for a single-character separator. -/
def splitOnChar (sep : Char) (l : List Char) : List (List Char) :=
  match l with
  | [] => [[]]
  | c :: rest =>
    let parts := splitOnChar sep rest
    if c == sep then [] :: parts
    else match parts with
      | [] => [[c]]
      | p :: ps => (c :: p) :: ps

/-! ## Spend aggregation (src/app/api/budgets.py, _calculate_current_spending) -/

/-- budgets.py line 355: `year, month_num = map(int, month.split('-'))`;
`none` where the unpacking or the `int` conversions raise. -/
def parseMonth (month : List Char) : Option (Nat × Nat) :=
  match splitOnChar '-' month with
  | [a, b] =>
    match digitsToNat a, digitsToNat b with
    | some y, some m => some (y, m)
    | _, _ => none
  | _ => none

/-- Python `datetime(year, month, 1)` (budgets.py lines 358-362): `none`
where the constructor raises (year outside 1..9999 or month outside 1..12). -/
def mkMonthStart (year month : Nat) : Option DateTime :=
  if 1 ≤ year ∧ year ≤ 9999 ∧ 1 ≤ month ∧ month ≤ 12 then
    some ⟨year, month, 1, 0, 0, 0⟩
  else none

/-- Sum of the `amount` column over a list of transaction rows; the SQL
`SUM` of no rows is `NULL`, which line 372 (`return spending or 0.0`)
turns into `0.0`, i.e. the sum over the empty list. -/
def sumAmounts (txs : List Transaction) : ℚ :=
  (txs.map Transaction.amount).sum

/-- budgets.py lines 351-376, `_calculate_current_spending`: parse the
`YYYY-MM` month, build the half-open range
`[datetime(y, m, 1), datetime of the first day of the next month)`
(rolling the year when `m = 12`), and sum `amount` over the transactions of
the category with type `expense` and timestamp in range.  Every exception
(malformed month, `datetime` constructor failure) is caught and turned into
`0.0` by the enclosing `try`/`except`. -/
def calculateCurrentSpending (txs : List Transaction) (category_id : Nat) (month : String) : ℚ :=
  match parseMonth month.data with
  | none => 0
  | some (y, m) =>
    match mkMonthStart y m with
    | none => 0
    | some start_date =>
      match (if m == 12 then mkMonthStart (y + 1) 1 else mkMonthStart y (m + 1)) with
      | none => 0
      | some end_date =>
        sumAmounts (txs.filter fun t =>
          t.category_id == some category_id &&
          t.transaction_type == TransactionType.expense &&
          DateTime.leB start_date t.timestamp &&
          DateTime.ltB t.timestamp end_date)

/-! ## The regex fragment used by the rule engine (Python `re`)

`AutoCategorizer._matches_rule` calls `re.search(pattern.lower(), text,
re.IGNORECASE)`.  The rule configuration only uses literals, the `.`
wildcard, the Kleene star and the standard escape classes, so the embedding
gives that fragment an executable parser and matcher; `parseRe` returns
`none` for constructs outside the fragment (and for the patterns on which
`re.compile` itself raises, such as a leading or doubled `*`). -/

/-- Tokens of the supported regex fragment. -/
inductive RTok
  | lit (c : Char)
  | dot
  | cls (c : Char)
  | star (t : RTok)
deriving DecidableEq, Repr

/-- The escape-class letters the fragment supports. -/
def classChars : List Char := ['d', 'D', 'w', 'W', 's', 'S']

/-- Regex metacharacters outside the supported fragment. -/
def metaChars : List Char :=
  ['(', ')', '[', ']', '|', '+', '?', '^', '$', Char.ofNat 123, Char.ofNat 125]

/-- Parse a pattern string into tokens (accumulator in reverse order);
`none` for patterns outside the supported fragment. -/
def parseRe (acc : List RTok) : List Char → Option (List RTok)
  | [] => some acc.reverse
  | '\\' :: [] => none
  | '\\' :: e :: rest2 =>
    if classChars.contains e then parseRe (RTok.cls e :: acc) rest2
    else if e.isAlphanum then none
    else parseRe (RTok.lit e :: acc) rest2
  | '*' :: rest =>
    match acc with
    | [] => none
    | RTok.star _ :: _ => none
    | t :: acc2 => parseRe (RTok.star t :: acc2) rest
  | '.' :: rest => parseRe (RTok.dot :: acc) rest
  | c :: rest =>
    if metaChars.contains c then none
    else parseRe (RTok.lit c :: acc) rest

/-- Python `\s` character set (ASCII part). -/
def isPySpace (c : Char) : Bool :=
  c == ' ' || c == Char.ofNat 9 || c == Char.ofNat 10 || c == Char.ofNat 13 ||
  c == Char.ofNat 11 || c == Char.ofNat 12

/-- Whether a single (non-star) token matches one character, under
`re.IGNORECASE`. -/
def tokChar : RTok → Char → Bool
  | RTok.lit p, c => p.toLower == c.toLower
  | RTok.dot, c => c != Char.ofNat 10
  | RTok.cls e, c =>
    if e == 'd' then c.isDigit
    else if e == 'D' then !c.isDigit
    else if e == 'w' then c.isAlphanum || c == Char.ofNat 95
    else if e == 'W' then !(c.isAlphanum || c == Char.ofNat 95)
    else if e == 's' then isPySpace c
    else if e == 'S' then !isPySpace c
    else false
  | RTok.star _, _ => false

/-- One backtracking step of the matcher, on explicit fuel (each step
shortens the token list at constant text or shortens the text, so
`(text + 1) * (tokens + 1)` steps always suffice; the fuel only serves to
keep the recursion structural and therefore executable). -/
def reMatchF : Nat → List RTok → List Char → Bool
  | 0, _, _ => false
  | _ + 1, [], _ => true
  | fuel + 1, RTok.star t :: ps, s =>
    reMatchF fuel ps s ||
      (match s with
       | [] => false
       | c :: s2 => tokChar t c && reMatchF fuel (RTok.star t :: ps) s2)
  | _ + 1, _ :: _, [] => false
  | fuel + 1, p :: ps, c :: s2 => tokChar p c && reMatchF fuel ps s2

/-- Whether the token list matches some prefix of the text. -/
def reMatch (ps : List RTok) (s : List Char) : Bool :=
  reMatchF ((s.length + 1) * (ps.length + 1)) ps s

/-- Whether the token list matches at some position of the text
(`re.search` semantics: unanchored). -/
def reSearchTok (ps : List RTok) : List Char → Bool
  | [] => reMatch ps []
  | c :: t => reMatch ps (c :: t) || reSearchTok ps t

/-- `re.search(pattern, text, re.IGNORECASE) is not None` for patterns in
the supported fragment (`false` where the pattern does not parse). -/
def reSearchCI (pattern_chars text : List Char) : Bool :=
  match parseRe [] pattern_chars with
  | none => false
  | some toks => reSearchTok toks text

/-! ## Rule table and classifier (src/app/services/categorizer.py) -/

/-- One entry of the rule mapping loaded from
`config/categorization_rules.yaml`: `keywords`, `patterns`,
`category_name`, and the optional `transaction_type` hint (present on the
income rules of the default table, never read by the matcher).
`rule.get("category_name")` on a mapping without the key yields `None`,
embedded as the empty string (both are falsy at the only use site). -/
structure Rule where
  keywords : List String
  patterns : List String
  category_name : String
  transaction_type : Option String
deriving DecidableEq, Repr

/-- The in-memory rule table `self.rules`: a Python dict, i.e. an
insertion-ordered association list keyed by rule name. -/
abbrev RuleTable := List (String × Rule)

/-- categorizer.py lines 111-125, `_matches_rule`: any keyword, lowercased,
is a substring of the text, or any pattern, lowercased, searches a match in
the text with `re.IGNORECASE`. -/
def matchesRule (text : List Char) (rule : Rule) : Bool :=
  rule.keywords.any (fun kw => substrB (lowerChars kw.data) text) ||
  rule.patterns.any (fun p => reSearchCI (lowerChars p.data) text)

/-- The category rows of the session together with the id the store will
assign to the next inserted row. -/
structure CatDB where
  categories : List Category
  next_id : Nat
deriving DecidableEq, Repr

/-- categorizer.py lines 127-148, `_get_or_create_category`: look the name
up with `.filter(Category.name == category_name).first()`; if absent,
insert a new active category and return it.  The `db is None` guard and the
`except` branch concern a missing or failing session and are unreachable in
this explicit-state embedding. -/
def getOrCreateCategory (category_name : String) (db : CatDB) : Category × CatDB :=
  match db.categories.find? (fun c => c.name == category_name) with
  | some c => (c, db)
  | none =>
    let c : Category := ⟨db.next_id, category_name, true⟩
    (c, ⟨db.categories ++ [c], db.next_id + 1⟩)

/-- categorizer.py line 95: `f"{merchant or ''} {description or ''}".lower().strip()`. -/
def analysisText (merchant description : Option String) : List Char :=
  stripChars (lowerChars ((merchant.getD "").data ++ ' ' :: (description.getD "").data))

/-- Python falsiness of an optional string: `None` or the empty string. -/
def optFalsy (s : Option String) : Bool :=
  s == none || s == some ""

/-- The `for rule_key, rule in self.rules.items()` loop of
`categorize_transaction` (lines 101-109): on the first rule that matches
the text **and** carries a truthy `category_name`, resolve that name and
return the category id; a matching rule with a falsy `category_name` is
skipped and the loop continues. -/
def categorizeLoop (rules : RuleTable) (text : List Char) (db : CatDB) : Option Nat × CatDB :=
  match rules with
  | [] => (none, db)
  | (_, rule) :: rest =>
    if matchesRule text rule then
      if rule.category_name ≠ "" then
        let (c, db1) := getOrCreateCategory rule.category_name db
        (some c.id, db1)
      else categorizeLoop rest text db
    else categorizeLoop rest text db

/-- categorizer.py lines 81-109, `categorize_transaction`: return `None`
when merchant and description are both falsy or the lowercased, stripped
concatenation is empty; otherwise run the rule loop.  The `amount`
parameter is accepted and never read. -/
def categorizeTransaction (merchant description : Option String) (amount : ℚ)
    (rules : RuleTable) (db : CatDB) : Option Nat × CatDB :=
  if optFalsy merchant && optFalsy description then (none, db)
  else if (analysisText merchant description).isEmpty then (none, db)
  else categorizeLoop rules (analysisText merchant description) db

/-- The categorizer's mutable state: the in-memory rule table and the rule
set held by the backing YAML file (`self.rules_file`); every successful
save rewrites the file with a dump of the whole in-memory table. -/
structure CategorizerState where
  rules : RuleTable
  file : RuleTable
deriving DecidableEq

/-- Python `d[k] = v` on a dict: replace in place when the key is present,
append otherwise. -/
def dictInsert (table : RuleTable) (name : String) (rule : Rule) : RuleTable :=
  if (table.map Prod.fst).contains name then
    table.map (fun p => if p.1 == name then (p.1, rule) else p)
  else table ++ [(name, rule)]

/-- Python `del d[k]` on a dict. -/
def dictRemove (table : RuleTable) (name : String) : RuleTable :=
  table.filter (fun p => p.1 ≠ name)

/-- categorizer.py lines 150-163, `add_custom_rule`: insert the rule (with
no `transaction_type` key) into the table, then dump the whole table to the
backing file. -/
def addCustomRule (s : CategorizerState) (rule_name : String) (keywords patterns : List String)
    (category_name : String) : CategorizerState :=
  let rules := dictInsert s.rules rule_name ⟨keywords, patterns, category_name, none⟩
  ⟨rules, rules⟩

/-- categorizer.py lines 181-191, `delete_rule`: when the name is present,
delete it and dump the whole table to the backing file; otherwise do
nothing (no save either). -/
def deleteRule (s : CategorizerState) (rule_name : String) : CategorizerState :=
  if (s.rules.map Prod.fst).contains rule_name then
    let rules := dictRemove s.rules rule_name
    ⟨rules, rules⟩
  else s

/-! ## Transaction update (src/app/api/transactions.py, update_transaction) -/

/-- `TransactionUpdate` from app/schemas.py with Pydantic's
`exclude_unset`: an outer `none` means the field was not sent.  For the
nullable fields an inner `Option` distinguishes setting `NULL` from not
sending the field. -/
structure TransactionUpdate where
  timestamp : Option DateTime
  amount : Option ℚ
  transaction_type : Option TransactionType
  category_id : Option (Option Nat)
  merchant : Option (Option String)
  description : Option (Option String)
deriving DecidableEq, Repr

/-- The `TransactionUpdate` with every field unset. -/
def emptyUpdate : TransactionUpdate := ⟨none, none, none, none, none, none⟩

/-- transactions.py lines 173-175: `setattr` of every field present in
`update_data` onto the stored transaction. -/
def applyUpdateFields (t : Transaction) (u : TransactionUpdate) : Transaction :=
  { t with
    timestamp := u.timestamp.getD t.timestamp
    amount := u.amount.getD t.amount
    transaction_type := u.transaction_type.getD t.transaction_type
    category_id := u.category_id.getD t.category_id
    merchant := u.merchant.getD t.merchant
    description := u.description.getD t.description }

/-- The transaction and account tables of the session. -/
structure LedgerDB where
  transactions : List Transaction
  accounts : List Account
deriving DecidableEq, Repr

/-- The signed effect a transaction type and amount have on an account
balance when applied (transactions.py lines 187-191): `+amount` for income,
`-amount` for expense, nothing for transfer. -/
def balanceEffect (tt : TransactionType) (amount : ℚ) : ℚ :=
  match tt with
  | TransactionType.income => amount
  | TransactionType.expense => -amount
  | TransactionType.transfer => 0

/-- transactions.py lines 156-201, `update_transaction`: find the
transaction by id (404 → `none`); apply the updated fields; when `amount`
or `transaction_type` was sent, reverse the old effect on the account
balance and then apply the new effect (lines 178-191; a missing account
would raise into the generic 500 handler → `none`); clear
`is_synced_to_sheets`; commit. -/
def updateTransaction (db : LedgerDB) (transaction_id : Nat) (u : TransactionUpdate) :
    Option LedgerDB :=
  match db.transactions.find? (fun t => t.id == transaction_id) with
  | none => none
  | some t =>
    let old_amount := t.amount
    let old_type := t.transaction_type
    let updated := applyUpdateFields t u
    let new_tx := { updated with is_synced_to_sheets := false }
    let txs := db.transactions.map (fun x => if x.id == transaction_id then new_tx else x)
    if u.amount.isSome || u.transaction_type.isSome then
      match db.accounts.find? (fun a => a.id == new_tx.account_id) with
      | none => none
      | some acc =>
        let b1 := acc.balance - balanceEffect old_type old_amount
        let b2 := b1 + balanceEffect new_tx.transaction_type new_tx.amount
        some ⟨txs, db.accounts.map (fun a => if a.id == acc.id then { a with balance := b2 } else a)⟩
    else some ⟨txs, db.accounts⟩

/-! ## Budget response serialization (src/app/schemas.py, Budget) -/

/-- Python `round(q)` (banker's rounding, exact arithmetic on ℚ). -/
def pyRoundInt (q : ℚ) : ℤ :=
  let f := Int.floor q
  let r := q - f
  if r < 1 / 2 then f
  else if 1 / 2 < r then f + 1
  else if f % 2 = 0 then f else f + 1

/-- Python `round(q, 2)`. -/
def pyRound2 (q : ℚ) : ℚ :=
  (pyRoundInt (q * 100) : ℚ) / 100

/-- schemas.py lines 128-132, validator `calculate_spent_percentage` on
`Budget.amount_spent`: replace the raw value by
`round((v / values['amount_limit']) * 100, 2)`; `amount_limit` is always
among the previously-validated values for a budget row read from the
store. -/
def serializeBudget (b : BudgetRow) : BudgetRow :=
  { b with amount_spent := pyRound2 (b.amount_spent / b.amount_limit * 100) }

/-- budgets.py lines 103-118, `get_budget`: find the budget by id (404 →
`none`), refresh `amount_spent` from `_calculate_current_spending`, and
serialize the row through the `Budget` response schema. -/
def getBudgetEndpoint (txs : List Transaction) (budgets : List BudgetRow) (budget_id : Nat) :
    Option BudgetRow :=
  match budgets.find? (fun b => b.id == budget_id) with
  | none => none
  | some b =>
    let current_spending := calculateCurrentSpending txs b.category_id b.month
    some (serializeBudget { b with amount_spent := current_spending })

/-! ## Spec-side definitions

These definitions follow the specification's words (not the source) and are
compared with the source-derived definitions above in the refinement
theorems. -/

/-- From the spec, §4.2 step 3: a keyword matches when it is a
case-insensitive substring of the text. -/
def specKeywordHit (kw : String) (text : List Char) : Bool :=
  substrB (lowerChars kw.data) (lowerChars text)

/-- From the spec, §4.2 step 3: a rule matches when some keyword is a
case-insensitive substring of the text, or some regex pattern — with the
regex semantics of the pattern as configured — searches a match anywhere in
the text case-insensitively. -/
def specMatchesRule (text : List Char) (rule : Rule) : Bool :=
  rule.keywords.any (fun kw => specKeywordHit kw text) ||
  rule.patterns.any (fun p => reSearchCI p.data text)

/-- The first rule of the table that matches the text and carries a
non-empty `category_name` (the rules the classification loop does not skip). -/
def firstEffectiveRule (rules : RuleTable) (text : List Char) : Option Rule :=
  (rules.find? (fun p => matchesRule text p.2 && p.2.category_name != "")).map Prod.snd

/-- From the spec, §4.4: membership of a timestamp in the calendar month
`(y, m)`. -/
def specInMonth (y m : Nat) (ts : DateTime) : Bool :=
  ts.year == y && ts.month == m

/-- From the spec, §4.4: the sum of `amount` over the transactions of the
category with type expense and timestamp inside the calendar month. -/
def specMonthSpend (txs : List Transaction) (category_id y m : Nat) : ℚ :=
  sumAmounts (txs.filter fun t =>
    t.category_id == some category_id &&
    t.transaction_type == TransactionType.expense &&
    specInMonth y m t.timestamp)

/-- Number of category rows carrying a given name. -/
def countName (db : CatDB) (name : String) : Nat :=
  (db.categories.filter (fun c => c.name == name)).length

/-! ## Sample rows used by the closed counterexample and witness theorems -/

/-- An expense of 100 in category 1 on 9999-12-15. -/
def sampleTx9912 : Transaction :=
  ⟨1, ⟨9999, 12, 15, 0, 0, 0⟩, 1, 100, TransactionType.expense, some 1, none, none, false⟩

/-- An expense of 100 in category 1 at exactly 2024-03-01T00:00:00. -/
def sampleTxBoundary : Transaction :=
  ⟨2, ⟨2024, 3, 1, 0, 0, 0⟩, 1, 100, TransactionType.expense, some 1, none, none, false⟩

/-- An expense of 100 in category 1 on 2024-12-20. -/
def sampleTxDec : Transaction :=
  ⟨3, ⟨2024, 12, 20, 0, 0, 0⟩, 1, 100, TransactionType.expense, some 1, none, none, false⟩

/-- An expense of 250 in category 1 on 2024-02-10. -/
def sampleTxFeb : Transaction :=
  ⟨4, ⟨2024, 2, 10, 12, 30, 0⟩, 1, 250, TransactionType.expense, some 1, none, none, false⟩

/-- A rule that matches the letter `a` but has an empty `category_name`. -/
def ruleEmptyCat : Rule := ⟨["a"], [], "", none⟩

/-- A rule that matches the letter `a` and resolves to `Coffee`. -/
def ruleCoffee : Rule := ⟨["a"], [], "Coffee", none⟩

/-- A rule whose only pattern is the escape class for non-digits. -/
def ruleNonDigit : Rule := ⟨[], ["\\D"], "X", none⟩

/-! ## Theorems -/

/-- With a positive limit, `spend = limit` gives `percentage_used = 100`
exactly. -/
lemma percentageUsed_self (limit : ℚ) (hl : 0 < limit) :
    percentageUsed limit limit = 100 := by
  simp only [percentageUsed, if_pos hl]
  field_simp

/-- C1: the claim says a budget at exactly 100% (limit = 1000, spend =
1000, threshold 0.8 ∈ [0.1, 1.0]) gets status `over_budget`; the code
compares `percentage_used > 100` strictly, so at exactly 100% the
`near_limit` branch is taken instead. -/
theorem budget_status_at_exact_limit_counterexample :
    budgetStatus 1000 (8 / 10) 1000 = BudgetStatus.near_limit ∧
    budgetStatus 1000 (8 / 10) 1000 ≠ BudgetStatus.over_budget := by
  have h : percentageUsed 1000 1000 = 100 := by
    unfold percentageUsed
    norm_num
  have heq : budgetStatus 1000 (8 / 10) 1000 = BudgetStatus.near_limit := by
    unfold budgetStatus
    rw [h]
    norm_num
  exact ⟨heq, by rw [heq]; decide⟩

/-- C1 (amended): with `amount_limit > 0` and `alert_threshold ∈ [0.1, 1]`,
the status is `over_budget` exactly when `percentage_used` is strictly
greater than 100, `near_limit` exactly when `percentage_used` is at most
100 and at least `alert_threshold * 100`, and `on_track` otherwise; a
budget with `current_spend` exactly equal to `amount_limit` (percentage
exactly 100) gets `near_limit`, not `over_budget`. -/
theorem budget_status_derivation (limit threshold spend : ℚ)
    (hl : 0 < limit) (ht1 : 1 / 10 ≤ threshold) (ht2 : threshold ≤ 1) :
    (budgetStatus limit threshold spend = BudgetStatus.over_budget ↔
      100 < percentageUsed limit spend) ∧
    (budgetStatus limit threshold spend = BudgetStatus.near_limit ↔
      (threshold * 100 ≤ percentageUsed limit spend ∧ percentageUsed limit spend ≤ 100)) ∧
    (budgetStatus limit threshold spend = BudgetStatus.on_track ↔
      percentageUsed limit spend < threshold * 100) ∧
    (spend = limit → budgetStatus limit threshold spend = BudgetStatus.near_limit) := by
  have ht100 : threshold * 100 ≤ 100 := by nlinarith
  unfold budgetStatus
  split_ifs with h1 h2
  · refine ⟨⟨fun _ => h1, fun _ => rfl⟩,
      ⟨fun hc => (nomatch hc), fun hc => absurd h1 (not_lt.mpr hc.2)⟩,
      ⟨fun hc => (nomatch hc), fun hc => absurd h1 (not_lt.mpr (le_of_lt (lt_of_lt_of_le hc ht100)))⟩,
      ?_⟩
    intro he
    rw [he, percentageUsed_self limit hl] at h1
    exact absurd h1 (by norm_num)
  · exact ⟨⟨fun hc => (nomatch hc), fun hc => absurd hc h1⟩,
      ⟨fun _ => ⟨h2, not_lt.mp h1⟩, fun _ => rfl⟩,
      ⟨fun hc => (nomatch hc), fun hc => absurd h2 (not_le.mpr hc)⟩,
      fun _ => rfl⟩
  · refine ⟨⟨fun hc => (nomatch hc), fun hc => absurd hc h1⟩,
      ⟨fun hc => (nomatch hc), fun hc => absurd hc.1 h2⟩,
      ⟨fun _ => not_le.mp h2, fun _ => rfl⟩,
      ?_⟩
    intro he
    rw [he, percentageUsed_self limit hl] at h2
    exact absurd ht100 h2

/-- C1 witness: the amended theorem applied at limit 1000, threshold 0.8,
spend 1000. -/
theorem budget_status_derivation_witness :
    (0 : ℚ) < 1000 ∧ budgetStatus 1000 (8 / 10) 1000 = BudgetStatus.near_limit :=
  ⟨by norm_num,
    (budget_status_derivation 1000 (8 / 10) 1000 (by norm_num) (by norm_num)
      (by norm_num)).2.2.2 rfl⟩

/-- C8: with `amount_limit ≤ 0` the guarded percentage is 0 for every
spend, the derived status is never `over_budget`, and the derivation is
independent of the spend value (the division never influences the
result). -/
theorem nonpositive_limit_guard (limit threshold spend : ℚ) (h : limit ≤ 0) :
    percentageUsed limit spend = 0 ∧
    budgetStatus limit threshold spend ≠ BudgetStatus.over_budget ∧
    budgetStatus limit threshold spend = budgetStatus limit threshold 0 := by
  have hpct : ∀ s : ℚ, percentageUsed limit s = 0 := by
    intro s
    simp only [percentageUsed, if_neg (not_lt.mpr h)]
  refine ⟨hpct spend, ?_, ?_⟩
  · unfold budgetStatus
    rw [hpct spend]
    split_ifs with h0 h2
    · exact absurd h0 (by norm_num)
    · decide
    · decide
  · unfold budgetStatus
    rw [hpct spend, hpct 0]

/-- C8 witness: the guard theorem applied at limit 0, threshold 0.8,
spend 50. -/
theorem nonpositive_limit_guard_witness :
    (0 : ℚ) ≤ 0 ∧ percentageUsed 0 50 = 0 ∧
    budgetStatus 0 (8 / 10) 50 ≠ BudgetStatus.over_budget :=
  ⟨le_refl 0, (nonpositive_limit_guard 0 (8 / 10) 50 (le_refl 0)).1,
    (nonpositive_limit_guard 0 (8 / 10) 50 (le_refl 0)).2.1⟩

/-- C10: a budget read through the public read endpoint does not expose the
raw cached spend: the response schema's validator replaces `amount_spent`
by `round(raw_amount_spent / amount_limit * 100, 2)`, where the raw value
was first refreshed from the spend aggregation; every other field of the
row is passed through unchanged. -/
theorem budget_response_amount_spent_is_percentage (txs : List Transaction)
    (budgets : List BudgetRow) (budget_id : Nat) (b : BudgetRow)
    (hfind : budgets.find? (fun x => x.id == budget_id) = some b) :
    (getBudgetEndpoint txs budgets budget_id).map BudgetRow.amount_spent =
      some (pyRound2 (calculateCurrentSpending txs b.category_id b.month / b.amount_limit * 100)) ∧
    (getBudgetEndpoint txs budgets budget_id).map BudgetRow.amount_limit = some b.amount_limit ∧
    (getBudgetEndpoint txs budgets budget_id).map BudgetRow.category_id = some b.category_id := by
  unfold getBudgetEndpoint
  rw [hfind]
  exact ⟨rfl, rfl, rfl⟩

/-- C10 witness: with a stored raw `amount_spent` of 999, a limit of 1000
and one matching February expense of 250, the serialized `amount_spent` is
the percentage 25, not an amount of money. -/
theorem budget_response_amount_spent_is_percentage_witness :
    [(⟨1, 1, "2024-02", 1000, 999, 8 / 10, true⟩ : BudgetRow)].find?
        (fun x => x.id == 1) = some ⟨1, 1, "2024-02", 1000, 999, 8 / 10, true⟩ ∧
    (getBudgetEndpoint [sampleTxFeb] [⟨1, 1, "2024-02", 1000, 999, 8 / 10, true⟩] 1).map
        BudgetRow.amount_spent = some 25 ∧
    (25 : ℚ) ≠ 999 := by
  have hfind : [(⟨1, 1, "2024-02", 1000, 999, 8 / 10, true⟩ : BudgetRow)].find?
      (fun x => x.id == 1) = some ⟨1, 1, "2024-02", 1000, 999, 8 / 10, true⟩ := rfl
  refine ⟨hfind, ?_, by norm_num⟩
  rw [(budget_response_amount_spent_is_percentage [sampleTxFeb]
    [⟨1, 1, "2024-02", 1000, 999, 8 / 10, true⟩] 1 ⟨1, 1, "2024-02", 1000, 999, 8 / 10, true⟩
    hfind).1]
  have hspend : calculateCurrentSpending [sampleTxFeb] 1 "2024-02" = 250 := by
    simp +decide [calculateCurrentSpending, parseMonth, splitOnChar, digitsToNat, mkMonthStart,
      sumAmounts, sampleTxFeb, DateTime.leB, DateTime.ltB]
  rw [hspend]
  have h25 : (250 : ℚ) / 1000 * 100 = 25 := by norm_num
  rw [h25]
  unfold pyRound2 pyRoundInt
  norm_num

/-- C4: updating a stored expense of amount `A_old` to an income of amount
`A_new` first reverses the old effect (`+A_old`) and then applies the new
one (`+A_new`), leaving the account balance at exactly `B + A_old +
A_new`. -/
theorem update_transaction_balance (db : LedgerDB) (transaction_id : Nat)
    (t : Transaction) (acc : Account) (a_new : ℚ)
    (hfind : db.transactions.find? (fun x => x.id == transaction_id) = some t)
    (htype : t.transaction_type = TransactionType.expense)
    (hacc : db.accounts.find? (fun a => a.id == t.account_id) = some acc) :
    ∃ db2,
      updateTransaction db transaction_id
          { emptyUpdate with
            amount := some a_new, transaction_type := some TransactionType.income } =
        some db2 ∧
      db2.accounts.find? (fun a => a.id == t.account_id) =
        some { acc with balance := acc.balance + t.amount + a_new } := by
  have hid : acc.id = t.account_id := by
    have := List.find?_some hacc
    simpa using this
  unfold updateTransaction
  rw [hfind]
  have haccid : (applyUpdateFields t
      { emptyUpdate with
        amount := some a_new, transaction_type := some TransactionType.income }).account_id =
      t.account_id := rfl
  simp only [emptyUpdate, applyUpdateFields, Option.getD_some, Option.getD_none,
    Option.isSome_some, Bool.true_or, if_true]
  rw [hacc]
  refine ⟨_, rfl, ?_⟩
  rw [List.find?_map]
  have hp : ((fun a : Account => a.id == t.account_id) ∘
      (fun a : Account => if a.id == acc.id then
        { a with balance := acc.balance - balanceEffect t.transaction_type t.amount +
            balanceEffect TransactionType.income a_new } else a)) =
      (fun a : Account => a.id == t.account_id) := by
    funext a
    by_cases h : a.id = acc.id
    · simp [h]
    · simp [h]
  rw [hp, hacc, htype]
  simp only [Option.map_some', balanceEffect]
  rw [if_pos (beq_self_eq_true acc.id)]
  have hbal : acc.balance - -t.amount + a_new = acc.balance + t.amount + a_new := by ring
  rw [hbal]

/-- C4 witness: the balance theorem applied to an account with balance 500
and an expense of 100 edited to an income of 150: the balance becomes
`500 + 100 + 150 = 750`. -/
theorem update_transaction_balance_witness :
    ∃ db2,
      updateTransaction
          ⟨[⟨1, ⟨2024, 5, 2, 0, 0, 0⟩, 1, 100, TransactionType.expense, none, none, none, true⟩],
            [⟨1, 500⟩]⟩ 1
          { emptyUpdate with
            amount := some 150, transaction_type := some TransactionType.income } =
        some db2 ∧
      db2.accounts.find? (fun a => a.id == 1) = some ⟨1, 500 + 100 + 150⟩ := by
  have h := update_transaction_balance
    ⟨[⟨1, ⟨2024, 5, 2, 0, 0, 0⟩, 1, 100, TransactionType.expense, none, none, none, true⟩],
      [⟨1, 500⟩]⟩ 1
    ⟨1, ⟨2024, 5, 2, 0, 0, 0⟩, 1, 100, TransactionType.expense, none, none, none, true⟩
    ⟨1, 500⟩ 150 rfl rfl rfl
  exact h

/-- When the name is already present, `_get_or_create_category` returns
the found row and leaves the store untouched. -/
lemma getOrCreate_found (db : CatDB) (name : String) (c : Category)
    (h : db.categories.find? (fun x => x.name == name) = some c) :
    getOrCreateCategory name db = (c, db) := by
  unfold getOrCreateCategory
  rw [h]

/-- When the name is absent, `_get_or_create_category` inserts a fresh
active row carrying the next id. -/
lemma getOrCreate_missing (db : CatDB) (name : String)
    (h : db.categories.find? (fun x => x.name == name) = none) :
    getOrCreateCategory name db =
      (⟨db.next_id, name, true⟩,
        ⟨db.categories ++ [⟨db.next_id, name, true⟩], db.next_id + 1⟩) := by
  unfold getOrCreateCategory
  rw [h]

/-- C6: calling the get-or-create operation twice with the same name
returns the same category id both times, the second call does not change
the store, and afterwards exactly one category row with that name exists,
provided at most one existed beforehand. -/
theorem get_or_create_category_idempotent (db : CatDB) (name : String)
    (h : countName db name ≤ 1) :
    (getOrCreateCategory name (getOrCreateCategory name db).2).1.id =
      (getOrCreateCategory name db).1.id ∧
    (getOrCreateCategory name (getOrCreateCategory name db).2).2 =
      (getOrCreateCategory name db).2 ∧
    countName (getOrCreateCategory name (getOrCreateCategory name db).2).2 name = 1 := by
  cases hfind : db.categories.find? (fun x => x.name == name) with
  | some c =>
    rw [getOrCreate_found db name c hfind]
    rw [getOrCreate_found db name c hfind]
    refine ⟨rfl, rfl, ?_⟩
    have hc : c ∈ db.categories := List.mem_of_find?_eq_some hfind
    have hpc := List.find?_some hfind
    have hmem : c ∈ db.categories.filter (fun x => x.name == name) :=
      List.mem_filter.mpr ⟨hc, hpc⟩
    have hpos : 0 < (db.categories.filter (fun x => x.name == name)).length :=
      List.length_pos.mpr (List.ne_nil_of_mem hmem)
    unfold countName at h ⊢
    exact le_antisymm h hpos
  | none =>
    rw [getOrCreate_missing db name hfind]
    have hfind2 :
        (db.categories ++ [(⟨db.next_id, name, true⟩ : Category)]).find?
          (fun x => x.name == name) = some ⟨db.next_id, name, true⟩ := by
      rw [List.find?_append, hfind]
      simp
    rw [getOrCreate_found _ name _ hfind2]
    refine ⟨rfl, rfl, ?_⟩
    have hnil : db.categories.filter (fun x => x.name == name) = [] :=
      List.filter_eq_nil_iff.mpr (by simpa using List.find?_eq_none.mp hfind)
    unfold countName
    simp [List.filter_append, hnil]

/-- C6 witness: the idempotence theorem applied to the empty store and the
name `Food`. -/
theorem get_or_create_category_idempotent_witness :
    countName ⟨[], 1⟩ "Food" ≤ 1 ∧
    (getOrCreateCategory "Food" (getOrCreateCategory "Food" ⟨[], 1⟩).2).1.id =
      (getOrCreateCategory "Food" ⟨[], 1⟩).1.id ∧
    countName (getOrCreateCategory "Food" (getOrCreateCategory "Food" ⟨[], 1⟩).2).2 "Food" = 1 :=
  ⟨by decide,
    (get_or_create_category_idempotent ⟨[], 1⟩ "Food" (by decide)).1,
    (get_or_create_category_idempotent ⟨[], 1⟩ "Food" (by decide)).2.2⟩

/-- C7: adding a rule under a fresh name and then deleting that name
restores both the in-memory rule table and the persisted backing store to
exactly the prior state (assuming the file was in sync with the table, the
invariant every load and save of the categorizer maintains). -/
theorem add_then_delete_rule_roundtrip (s : CategorizerState) (rule_name : String)
    (keywords patterns : List String) (category_name : String)
    (hfresh : (s.rules.map Prod.fst).contains rule_name = false)
    (hsync : s.file = s.rules) :
    deleteRule (addCustomRule s rule_name keywords patterns category_name) rule_name = s := by
  have hins : dictInsert s.rules rule_name ⟨keywords, patterns, category_name, none⟩ =
      s.rules ++ [(rule_name, ⟨keywords, patterns, category_name, none⟩)] := by
    unfold dictInsert
    rw [if_neg (by rw [hfresh]; exact Bool.false_ne_true)]
  have hnotin : rule_name ∉ s.rules.map Prod.fst := by
    intro hmem
    have := List.elem_eq_true_of_mem hmem
    rw [List.contains] at hfresh
    rw [hfresh] at this
    exact Bool.false_ne_true this
  have hnotmem : ∀ p ∈ s.rules, p.1 ≠ rule_name := by
    intro p hp he
    exact hnotin (he ▸ List.mem_map_of_mem Prod.fst hp)
  unfold addCustomRule
  rw [hins]
  unfold deleteRule
  rw [if_pos ?hc]
  case hc =>
    have : rule_name ∈ (s.rules ++ [(rule_name,
        (⟨keywords, patterns, category_name, none⟩ : Rule))]).map Prod.fst := by
      rw [List.map_append]
      exact List.mem_append_right _ (by simp)
    exact List.elem_eq_true_of_mem this
  have hrem : dictRemove
      (s.rules ++ [(rule_name, (⟨keywords, patterns, category_name, none⟩ : Rule))]) rule_name =
      s.rules := by
    unfold dictRemove
    rw [List.filter_append]
    have h1 : s.rules.filter (fun p => decide (p.1 ≠ rule_name)) = s.rules :=
      List.filter_eq_self.mpr (fun p hp => by simpa using hnotmem p hp)
    have h2 : ([(rule_name, (⟨keywords, patterns, category_name, none⟩ : Rule))]).filter
        (fun p => decide (p.1 ≠ rule_name)) = [] := by simp
    rw [h1, h2, List.append_nil]
  rw [hrem]
  obtain ⟨rules, file⟩ := s
  simp only at hsync
  rw [hsync]

/-- C7 witness: the round-trip theorem applied to a one-rule state in sync
with its file: adding `coffee` and deleting it restores the state. -/
theorem add_then_delete_rule_roundtrip_witness :
    (([("transportation", (⟨["taxi"], [], "Transportation", none⟩ : Rule))].map
        Prod.fst).contains "coffee" = false) ∧
    deleteRule
        (addCustomRule
          ⟨[("transportation", ⟨["taxi"], [], "Transportation", none⟩)],
            [("transportation", ⟨["taxi"], [], "Transportation", none⟩)]⟩
          "coffee" ["latte"] [] "Coffee")
        "coffee" =
      ⟨[("transportation", ⟨["taxi"], [], "Transportation", none⟩)],
        [("transportation", ⟨["taxi"], [], "Transportation", none⟩)]⟩ :=
  ⟨by decide,
    add_then_delete_rule_roundtrip
      ⟨[("transportation", ⟨["taxi"], [], "Transportation", none⟩)],
        [("transportation", ⟨["taxi"], [], "Transportation", none⟩)]⟩
      "coffee" ["latte"] [] "Coffee" (by decide) rfl⟩

/-- Lowercasing does not move a whitespace character. -/
lemma toLower_of_whitespace (c : Char) (h : c.isWhitespace = true) : c.toLower = c := by
  have h4 : c = ' ' ∨ c = '\t' ∨ c = '\r' ∨ c = '\n' := by
    simpa [Char.isWhitespace, or_assoc] using h
  rcases h4 with h1 | h1 | h1 | h1 <;> rw [h1] <;> decide

/-- Stripping a list of whitespace characters leaves nothing. -/
lemma stripChars_of_all_whitespace (l : List Char) (h : ∀ c ∈ l, c.isWhitespace = true) :
    stripChars l = [] := by
  unfold stripChars
  have h1 : l.dropWhile Char.isWhitespace = [] := List.dropWhile_eq_nil_iff.mpr h
  rw [h1]
  rfl

/-- A falsy optional string contributes the empty string to the analysis
text. -/
lemma optFalsy_getD (s : Option String) (h : optFalsy s = true) : s.getD "" = "" := by
  cases s with
  | none => rfl
  | some v =>
    simp only [optFalsy, Bool.or_eq_true, beq_iff_eq] at h
    rcases h with h | h
    · exact absurd h (Option.some_ne_none v)
    · rw [Option.some.inj h]
      rfl

/-- C9: when merchant and description are both absent, empty, or
whitespace-only, classification returns no category and leaves the
category store untouched, for every amount and every rule table. -/
theorem whitespace_input_never_classifies (merchant description : Option String)
    (amount : ℚ) (rules : RuleTable) (db : CatDB)
    (hm : ∀ c ∈ (merchant.getD "").data, c.isWhitespace = true)
    (hd : ∀ c ∈ (description.getD "").data, c.isWhitespace = true) :
    categorizeTransaction merchant description amount rules db = (none, db) := by
  unfold categorizeTransaction
  by_cases hf : (optFalsy merchant && optFalsy description) = true
  · rw [if_pos hf]
  · rw [if_neg hf]
    have htext : analysisText merchant description = [] := by
      unfold analysisText
      apply stripChars_of_all_whitespace
      intro c hc
      unfold lowerChars at hc
      obtain ⟨c0, hc0, rfl⟩ := List.mem_map.mp hc
      have hw : c0.isWhitespace = true := by
        rcases List.mem_append.mp hc0 with h1 | h2
        · exact hm c0 h1
        · rcases List.mem_cons.mp h2 with h3 | h4
          · rw [h3]; decide
          · exact hd c0 h4
      rw [toLower_of_whitespace c0 hw]
      exact hw
    rw [htext]
    rfl

/-- C9 witness: the theorem applied to a whitespace-only merchant, an
absent description, amount 100 and a rule table whose rule would match
anything. -/
theorem whitespace_input_never_classifies_witness :
    categorizeTransaction (some " ") none 100 [("r", ⟨["a"], [], "X", none⟩)] ⟨[], 5⟩ =
      (none, ⟨[], 5⟩) :=
  whitespace_input_never_classifies (some " ") none 100 [("r", ⟨["a"], [], "X", none⟩)] ⟨[], 5⟩
    (by decide) (by decide)

/-- Two pointwise-equal predicates agree on `List.any`. -/
lemma any_congr_of_mem {α : Type} (f g : α → Bool) (l : List α)
    (h : ∀ x ∈ l, f x = g x) : l.any f = l.any g := by
  induction l with
  | nil => rfl
  | cons a t ih =>
    simp only [List.any_cons]
    rw [h a (List.mem_cons_self a t), ih (fun x hx => h x (List.mem_cons_of_mem a hx))]

/-- C5 counterexample: the rule whose only pattern is `\D` (non-digit, as
configured it does not match the text `5`) does match under the code,
because the code lowercases the pattern into `\d` before searching; and
the spec-side matcher, which preserves the configured pattern, rejects. -/
theorem matches_rule_lowercased_pattern_counterexample :
    matchesRule ['5'] ruleNonDigit = true ∧
    specMatchesRule ['5'] ruleNonDigit = false ∧
    ruleNonDigit.transaction_type = none := by
  refine ⟨by decide, by decide, rfl⟩

/-- C5 (amended): on lowercase text, a rule matches exactly as the spec
says — some keyword is a case-insensitive substring or some pattern finds
an unanchored case-insensitive match — provided the patterns contain no
uppercase characters (the code lowercases each pattern before compiling
it, which flips uppercase class escapes such as `\D` into their
complements but is invisible on lowercase patterns); the
`transaction_type` hint never influences matching. -/
theorem matches_rule_spec_agreement (text : List Char) (rule : Rule)
    (htext : lowerChars text = text)
    (hpat : ∀ p ∈ rule.patterns, lowerChars p.data = p.data) :
    matchesRule text rule = specMatchesRule text rule ∧
    (∀ hint, matchesRule text { rule with transaction_type := hint } = matchesRule text rule) := by
  constructor
  · unfold matchesRule specMatchesRule specKeywordHit
    rw [htext]
    congr 1
    exact any_congr_of_mem _ _ rule.patterns (fun p hp => by rw [hpat p hp])
  · intro hint
    rfl

/-- C5 witness: the agreement theorem applied to the lowercase text
`gofood order` and a rule with one keyword and one lowercase pattern. -/
theorem matches_rule_spec_agreement_witness :
    matchesRule "gofood order".data ⟨["resto"], ["go.*food"], "Food", none⟩ =
      specMatchesRule "gofood order".data ⟨["resto"], ["go.*food"], "Food", none⟩ ∧
    matchesRule "gofood order".data ⟨["resto"], ["go.*food"], "Food", none⟩ = true :=
  ⟨(matches_rule_spec_agreement "gofood order".data ⟨["resto"], ["go.*food"], "Food", none⟩
      (by decide) (by decide)).1,
    by decide⟩

/-- C2 counterexample: with a first rule that matches the text but has an
empty `category_name` and a second rule that also matches, classification
returns the second rule's category (`Coffee`, freshly created with id 1):
a later rule's category is returned even though an earlier rule matched. -/
theorem later_rule_category_returned_counterexample :
    matchesRule (analysisText (some "a") none) ruleEmptyCat = true ∧
    categorizeTransaction (some "a") none 0
        [("r1", ruleEmptyCat), ("r2", ruleCoffee)] ⟨[], 1⟩ =
      (some 1, ⟨[⟨1, "Coffee", true⟩], 2⟩) := by
  refine ⟨by decide, by decide⟩

/-- One step of the classification loop. -/
lemma categorizeLoop_cons (key : String) (rule : Rule) (tl : RuleTable) (text : List Char)
    (db : CatDB) :
    categorizeLoop ((key, rule) :: tl) text db =
      if matchesRule text rule then
        if rule.category_name ≠ "" then
          (some (getOrCreateCategory rule.category_name db).1.id,
            (getOrCreateCategory rule.category_name db).2)
        else categorizeLoop tl text db
      else categorizeLoop tl text db := rfl

/-- The classification loop returns the resolution of the first rule that
matches and carries a non-empty `category_name`, and `none` with the store
untouched when there is no such rule. -/
lemma categorizeLoop_eq_firstEffective (rules : RuleTable) (text : List Char) (db : CatDB) :
    categorizeLoop rules text db =
      match firstEffectiveRule rules text with
      | none => (none, db)
      | some r =>
        (some (getOrCreateCategory r.category_name db).1.id,
          (getOrCreateCategory r.category_name db).2) := by
  induction rules with
  | nil => rfl
  | cons hd tl ih =>
    obtain ⟨key, rule⟩ := hd
    rw [categorizeLoop_cons]
    by_cases hmatch : matchesRule text rule = true
    · rw [if_pos hmatch]
      by_cases hname : rule.category_name = ""
      · rw [if_neg (by simpa using hname)]
        unfold firstEffectiveRule
        rw [List.find?_cons_of_neg _ (by simp [hmatch, hname])]
        exact ih
      · rw [if_pos hname]
        unfold firstEffectiveRule
        rw [List.find?_cons_of_pos _ (by simp [hmatch, hname])]
        rfl
    · rw [if_neg hmatch]
      unfold firstEffectiveRule
      rw [List.find?_cons_of_neg _ (by simp [hmatch])]
      exact ih

/-- Both optional inputs falsy forces an empty analysis text. -/
lemma analysisText_of_falsy (merchant description : Option String)
    (hm : optFalsy merchant = true) (hd : optFalsy description = true) :
    analysisText merchant description = [] := by
  unfold analysisText
  rw [optFalsy_getD merchant hm, optFalsy_getD description hd]
  rfl

/-- C2 (amended): for every rule table and inputs whose analysis text is
non-empty, classification returns the category id resolved (by
get-or-create) from the `category_name` of the first rule that matches the
text **and** has a non-empty `category_name`; matching rules with an empty
`category_name` are skipped, and when no rule matches effectively the
result is no category with the store untouched. -/
theorem categorize_returns_first_effective_rule (merchant description : Option String)
    (amount : ℚ) (rules : RuleTable) (db : CatDB)
    (h : analysisText merchant description ≠ []) :
    categorizeTransaction merchant description amount rules db =
      match firstEffectiveRule rules (analysisText merchant description) with
      | none => (none, db)
      | some r =>
        (some (getOrCreateCategory r.category_name db).1.id,
          (getOrCreateCategory r.category_name db).2) := by
  unfold categorizeTransaction
  have hfalsy : (optFalsy merchant && optFalsy description) ≠ true := by
    intro hb
    rcases Bool.and_eq_true_iff.mp hb with ⟨h1, h2⟩
    exact h (analysisText_of_falsy merchant description h1 h2)
  rw [if_neg hfalsy]
  rw [if_neg (by simpa using h)]
  exact categorizeLoop_eq_firstEffective rules (analysisText merchant description) db

/-- C2 witness: the amended theorem applied to merchant `gofood` and a
two-rule table whose second rule also matches; the first effective rule
(`Food & Dining`) wins. -/
theorem categorize_returns_first_effective_rule_witness :
    analysisText (some "gofood") none ≠ [] ∧
    categorizeTransaction (some "gofood") none 0
        [("food", ⟨["gofood"], [], "Food & Dining", none⟩),
          ("shopping", ⟨["go"], [], "Shopping", none⟩)] ⟨[], 1⟩ =
      (some 1, ⟨[⟨1, "Food & Dining", true⟩], 2⟩) := by
  refine ⟨by decide, ?_⟩
  rw [categorize_returns_first_effective_rule (some "gofood") none 0
    [("food", ⟨["gofood"], [], "Food & Dining", none⟩),
      ("shopping", ⟨["go"], [], "Shopping", none⟩)] ⟨[], 1⟩ (by decide)]
  decide

/-- Bool equality from equivalence of truth. -/
lemma bool_eq_of_iff {a b : Bool} (h : a = true ↔ b = true) : a = b := by
  cases a <;> cases b <;> simp_all

set_option maxHeartbeats 1000000 in
/-- Being at or after the first instant of a month, for a timestamp with a
positive day-of-month, is a lexicographic condition on (year, month). -/
lemma leB_monthStart_iff (y m : Nat) (ts : DateTime) (htd : 1 ≤ ts.day) :
    DateTime.leB ⟨y, m, 1, 0, 0, 0⟩ ts = true ↔
      (y < ts.year ∨ (y = ts.year ∧ m ≤ ts.month)) := by
  obtain ⟨ty, tm, td, th, tmi, tse⟩ := ts
  simp only [DateTime.leB]
  simp only at htd
  split_ifs <;> simp_all <;> omega

set_option maxHeartbeats 1000000 in
/-- Being strictly before the first instant of a month, for a timestamp
with a positive day-of-month, is a lexicographic condition on
(year, month). -/
lemma ltB_monthStart_iff (y m : Nat) (ts : DateTime) (htd : 1 ≤ ts.day) :
    DateTime.ltB ts ⟨y, m, 1, 0, 0, 0⟩ = true ↔
      (ts.year < y ∨ (ts.year = y ∧ ts.month < m)) := by
  obtain ⟨ty, tm, td, th, tmi, tse⟩ := ts
  simp only [DateTime.ltB]
  simp only at htd
  split_ifs <;> simp_all <;> omega

/-- The half-open range test of `_calculate_current_spending` coincides
with calendar-month membership for real timestamps. -/
lemma range_eq_inMonth (y m : Nat) (ts : DateTime) (hm1 : 1 ≤ m) (hm2 : m ≤ 12)
    (hts1 : 1 ≤ ts.month) (hts2 : ts.month ≤ 12) (htd : 1 ≤ ts.day) :
    (DateTime.leB ⟨y, m, 1, 0, 0, 0⟩ ts &&
      DateTime.ltB ts (if m = 12 then ⟨y + 1, 1, 1, 0, 0, 0⟩ else ⟨y, m + 1, 1, 0, 0, 0⟩)) =
      specInMonth y m ts := by
  apply bool_eq_of_iff
  rw [Bool.and_eq_true_iff, leB_monthStart_iff y m ts htd]
  by_cases h12 : m = 12
  · subst h12
    rw [if_pos rfl, ltB_monthStart_iff (y + 1) 1 ts htd]
    simp only [specInMonth, Bool.and_eq_true_iff, beq_iff_eq]
    omega
  · rw [if_neg h12, ltB_monthStart_iff y (m + 1) ts htd]
    simp only [specInMonth, Bool.and_eq_true_iff, beq_iff_eq]
    omega

/-- C3 counterexample: the month string `9999-12` is of the form `YYYY-MM`
and a December 9999 expense is representable, but the aggregation returns 0
instead of the month's sum of 100: computing the exclusive upper bound
`datetime(10000, 1, 1)` raises (year 10000 is out of `datetime` range), the
`except` branch swallows the error, and `0.0` is returned. -/
theorem spend_aggregation_december_9999_counterexample :
    parseMonth "9999-12".data = some (9999, 12) ∧
    calculateCurrentSpending [sampleTx9912] 1 "9999-12" = 0 ∧
    specMonthSpend [sampleTx9912] 1 9999 12 = 100 := by
  refine ⟨by decide, by decide, ?_⟩
  simp +decide [specMonthSpend, specInMonth, sumAmounts, sampleTx9912]

/-- C3 (amended): for every month string parsing as a real calendar month
`(y, m)` other than December 9999, the aggregation equals the sum of
`amount` over exactly the transactions of the category with type expense
and timestamp inside the calendar month `(y, m)` — the half-open range
`[first of month, first of next month)` with the year rolled on December —
and in particular returns 0 when no transaction matches; for 9999-12 the
upper bound is unrepresentable and the aggregation returns 0 instead. -/
theorem spend_aggregation_is_month_sum (txs : List Transaction) (category_id : Nat)
    (month : String) (y m : Nat)
    (hparse : parseMonth month.data = some (y, m))
    (hy1 : 1 ≤ y) (hy2 : y ≤ 9999) (hm1 : 1 ≤ m) (hm2 : m ≤ 12)
    (hroll : ¬(y = 9999 ∧ m = 12))
    (hts : ∀ t ∈ txs, 1 ≤ t.timestamp.month ∧ t.timestamp.month ≤ 12 ∧ 1 ≤ t.timestamp.day) :
    calculateCurrentSpending txs category_id month = specMonthSpend txs category_id y m := by
  unfold calculateCurrentSpending
  rw [hparse]
  dsimp only
  have hstart : mkMonthStart y m = some ⟨y, m, 1, 0, 0, 0⟩ := by
    unfold mkMonthStart
    rw [if_pos ⟨hy1, hy2, hm1, hm2⟩]
  rw [hstart]
  have hend : (if m == 12 then mkMonthStart (y + 1) 1 else mkMonthStart y (m + 1)) =
      some (if m = 12 then ⟨y + 1, 1, 1, 0, 0, 0⟩ else (⟨y, m + 1, 1, 0, 0, 0⟩ : DateTime)) := by
    by_cases h12 : m = 12
    · have hy9 : y + 1 ≤ 9999 := by omega
      rw [if_pos (by simpa using h12), if_pos h12]
      unfold mkMonthStart
      rw [if_pos (by omega)]
    · rw [if_neg (by simpa using h12), if_neg h12]
      unfold mkMonthStart
      rw [if_pos (by omega)]
  rw [hend]
  dsimp only
  unfold specMonthSpend
  congr 1
  apply List.filter_congr
  intro t ht
  obtain ⟨htm1, htm2, htd⟩ := hts t ht
  rw [Bool.and_assoc, range_eq_inMonth y m t.timestamp hm1 hm2 htm1 htm2 htd]

/-- C3 witness: the aggregation theorem applied twice — a transaction at
exactly 2024-03-01T00:00:00 is excluded from month 2024-02 (sum 0), and a
December 2024 transaction is captured by the year-rolled range for month
2024-12 (sum 100). -/
theorem spend_aggregation_is_month_sum_witness :
    parseMonth "2024-02".data = some (2024, 2) ∧
    calculateCurrentSpending [sampleTxBoundary] 1 "2024-02" = 0 ∧
    calculateCurrentSpending [sampleTxDec] 1 "2024-12" = 100 := by
  refine ⟨by decide, ?_, ?_⟩
  · rw [spend_aggregation_is_month_sum [sampleTxBoundary] 1 "2024-02" 2024 2 (by decide)
      (by norm_num) (by norm_num) (by norm_num) (by norm_num) (by norm_num) (by decide)]
    simp +decide [specMonthSpend, specInMonth, sumAmounts, sampleTxBoundary]
  · rw [spend_aggregation_is_month_sum [sampleTxDec] 1 "2024-12" 2024 12 (by decide)
      (by norm_num) (by norm_num) (by norm_num) (by norm_num) (by norm_num) (by decide)]
    simp +decide [specMonthSpend, specInMonth, sumAmounts, sampleTxDec]

end FinHelper
